import Mathlib

/-!
Verification of the epee-encoding repository (Monero epee binary format,
Rust) against its natural-language specification.

Shallow embedding conventions:
* Bytes are `Nat` values (a reader input is a `List Nat`; values produced by
  the encoder are always `< 256`).  A reader is consumed functionally: every
  read returns the value together with the remaining input, mirroring the
  byte-slice `Read` adapter of src/src/io.rs which advances on every read.
* The writer is the growable byte buffer (`Vec<u8>` adapter of io.rs), whose
  `write` never fails; write operations append to a `List Nat`.
* Rust `Result<T, Error>` becomes `Except Err T`; the Rust panic inside
  `Option::write` (src/src/value.rs) is modelled by a dedicated result
  constructor `WOut.panicked`, kept distinct from all `Err` values.
* Machine integers are `Nat` with explicit truncation (`% 2 ^ 64`,
  per-byte `% 256`) exactly where Rust performs `as` casts or wrapping.
-/

namespace Epee

/-- The error taxonomy of src/src/error.rs: `IO`, `Format` and `Value`,
each carrying a static diagnostic string. -/
inductive Err where
  | io : String → Err
  | format : String → Err
  | val : String → Err
deriving DecidableEq, Repr

/-- Result of a write operation: the updated byte buffer, an `Err`, or a
reached Rust `panic` (the `Option::write` `None` branch of
src/src/value.rs; the panic message is elided). -/
inductive WOut where
  | ok : List Nat → WOut
  | err : Err → WOut
  | panicked : WOut
deriving DecidableEq, Repr

/-- Sequencing of write operations (`?` propagation on the write path). -/
def WOut.andThen : WOut → (List Nat → WOut) → WOut
  | .ok w, f => f w
  | .err e, _ => .err e
  | .panicked, _ => .panicked

/-- Decidable equality on `Except` results (needed to decide statements
about codec outcomes). -/
instance [DecidableEq ε] [DecidableEq α] : DecidableEq (Except ε α)
  | .ok a, .ok b => decidable_of_iff (a = b) (by simp)
  | .ok _, .error _ => .isFalse (by simp)
  | .error _, .ok _ => .isFalse (by simp)
  | .error a, .error b => decidable_of_iff (a = b) (by simp)

/-- `read_byte` of src/src/io.rs: one byte via `read_exact`; an empty
reader fails with `IO("Reader ran out of bytes")`. -/
def readByte : List Nat → Except Err (Nat × List Nat)
  | [] => .error (.io "Reader ran out of bytes")
  | b :: r => .ok (b, r)

/-- `read_exact` / `read_var_bytes` of src/src/io.rs on the byte-slice
reader: exactly `n` bytes or `IO("Reader ran out of bytes")` (the failure
discards the result, so copying byte-by-byte is equivalent to the slice
copy). -/
def readExactN : Nat → List Nat → Except Err (List Nat × List Nat)
  | 0, input => .ok ([], input)
  | _ + 1, [] => .error (.io "Reader ran out of bytes")
  | n + 1, b :: r =>
    match readExactN n r with
    | .error e => .error e
    | .ok (s, r2) => .ok (b :: s, r2)

/-- Whether a byte is a UTF-8 continuation byte (`0x80 ..= 0xBF`). -/
def utf8Cont (b : Nat) : Bool := 0x80 ≤ b && b ≤ 0xBF

/-- UTF-8 well-formedness of a byte list, as checked by Rust
`String::from_utf8` (RFC 3629: no overlong forms, no surrogates, no code
points above U+10FFFF).  `read_string` of src/src/io.rs performs this
validation on decode. -/
def utf8Valid : List Nat → Bool
  | [] => true
  | b :: rest =>
    if b ≤ 0x7F then utf8Valid rest
    else if 0xC2 ≤ b ∧ b ≤ 0xDF then
      match rest with
      | b1 :: rest1 => utf8Cont b1 && utf8Valid rest1
      | [] => false
    else if 0xE0 ≤ b ∧ b ≤ 0xEF then
      match rest with
      | b1 :: b2 :: rest2 =>
        (if b = 0xE0 then 0xA0 ≤ b1 && b1 ≤ 0xBF
         else if b = 0xED then 0x80 ≤ b1 && b1 ≤ 0x9F
         else utf8Cont b1) && utf8Cont b2 && utf8Valid rest2
      | _ => false
    else if 0xF0 ≤ b ∧ b ≤ 0xF4 then
      match rest with
      | b1 :: b2 :: b3 :: rest3 =>
        (if b = 0xF0 then 0x90 ≤ b1 && b1 ≤ 0xBF
         else if b = 0xF4 then 0x80 ≤ b1 && b1 ≤ 0x8F
         else utf8Cont b1) && utf8Cont b2 && utf8Cont b3 && utf8Valid rest3
      | _ => false
    else false

/-- `read_string` of src/src/io.rs: read `len` bytes and validate UTF-8;
invalid UTF-8 fails with `Format("Invalid string")`.  The name bytes are
returned as a byte list (byte equality on UTF-8 byte lists coincides with
`&str` equality). -/
def readStringB (len : Nat) (input : List Nat) : Except Err (List Nat × List Nat) :=
  match readExactN len input with
  | .error e => .error e
  | .ok (s, r) => if utf8Valid s then .ok (s, r) else .error (.format "Invalid string")

/-! ## Varint codec (src/src/varint.rs) -/

/-- Little-endian byte decomposition of width `w` (the `to_le_bytes` of the
`uN` value; each byte is reduced `% 256`, matching the machine-integer
representation). -/
def leBytes : Nat → Nat → List Nat
  | 0, _ => []
  | w + 1, n => n % 256 :: leBytes w (n / 256)

/-- `write_varint` of src/src/varint.rs: pick the smallest of the widths
1/2/4/8 whose value range contains `number` (thresholds `2^6-1`, `2^14-1`,
`2^30-1`), store the width tag in the low two bits and emit the shifted
value little-endian.  The `as u8 / as u16 / as u32` casts truncate, and the
`u64` shift wraps, hence the explicit `%`. -/
def writeVarint (number : Nat) : List Nat :=
  let sizeMarker : Nat :=
    if number ≤ 2 ^ 6 - 1 then 0
    else if number ≤ 2 ^ 14 - 1 then 1
    else if number ≤ 2 ^ 30 - 1 then 2
    else 3
  let n : Nat := ((number <<< 2) % 2 ^ 64) ||| sizeMarker
  if sizeMarker = 0 then leBytes 1 n
  else if sizeMarker = 1 then leBytes 2 n
  else if sizeMarker = 2 then leBytes 4 n
  else leBytes 8 n

/-- The read loop of `read_varint`: `for i in 1..len` reads one byte and
ors it into the accumulator at shift `(i-1)*8 + 6`.  `count` is the number
of remaining iterations, `i` the loop variable. -/
def readVarintLoop : Nat → Nat → Nat → List Nat → Except Err (Nat × List Nat)
  | 0, _, vi, input => .ok (vi, input)
  | count + 1, i, vi, input =>
    match readByte input with
    | .error e => .error e
    | .ok (b, r) => readVarintLoop count (i + 1) (vi ||| (b <<< ((i - 1) * 8 + 6))) r

/-- `read_varint` of src/src/varint.rs: low two bits of the first byte
select the width 1/2/4/8; remaining bytes are ored in little-endian above
the first six value bits. -/
def readVarint (input : List Nat) : Except Err (Nat × List Nat) :=
  match readByte input with
  | .error e => .error e
  | .ok (viStart, r) =>
    let len : Nat :=
      if viStart % 4 = 0 then 1
      else if viStart % 4 = 1 then 2
      else if viStart % 4 = 2 then 4
      else 8
    readVarintLoop (len - 1) 1 (viStart >>> 2) r

/-! ## Type markers (src/src/marker.rs) -/

/-- The inner type tag (`InnerMarker` enum of src/src/marker.rs). -/
inductive InnerMarker where
  | i64 | i32 | i16 | i8 | u64 | u32 | u16 | u8 | f64
  | str | bool | obj
deriving DecidableEq, Repr

/-- `Marker`: inner tag plus sequence flag. -/
structure Marker where
  innerMarker : InnerMarker
  isSeq : Bool
deriving DecidableEq, Repr

/-- `Marker::new`. -/
def Marker.new (m : InnerMarker) : Marker := ⟨m, false⟩

/-- `Marker::into_seq`: promoting an already-sequence marker is a
programmer error (a Rust panic at constant evaluation; never reached by
any definition in this file, the source value is returned as junk), and a
`u8` marker promotes to the plain string marker, the byte-string /
u8-sequence equivalence. -/
def Marker.intoSeq (m : Marker) : Marker :=
  if m.isSeq then m
  else if m.innerMarker = .u8 then ⟨.str, false⟩
  else ⟨m.innerMarker, true⟩

/-- `Marker::as_u8`: the numeric tag table, with bit `0x80` for
sequences. -/
def Marker.asU8 (m : Marker) : Nat :=
  let v : Nat :=
    match m.innerMarker with
    | .i64 => 1 | .i32 => 2 | .i16 => 3 | .i8 => 4
    | .u64 => 5 | .u32 => 6 | .u16 => 7 | .u8 => 8
    | .f64 => 9 | .str => 10 | .bool => 11 | .obj => 12
  if m.isSeq then v ||| 0x80 else v

/-- `TryFrom<u8> for Marker` (src/src/marker.rs): mask bit `0x80` into the
sequence flag, map the low bits `1..=12` to the inner tag, otherwise fail.
In the snapshot marker.rs constructs the failure through the io shim with
message "Unknown value Marker"; `read_marker` of src/src/lib.rs returns the
crate `Result`, whose taxonomy places an unknown marker under `Format`
(spec section 7), hence `Format("Unknown value Marker")` here. -/
def markerTryFrom (b : Nat) : Except Err Marker :=
  let isSeq : Bool := b &&& 0x80 > 0
  let v : Nat := if isSeq then b ^^^ 0x80 else b
  if v = 1 then .ok ⟨.i64, isSeq⟩
  else if v = 2 then .ok ⟨.i32, isSeq⟩
  else if v = 3 then .ok ⟨.i16, isSeq⟩
  else if v = 4 then .ok ⟨.i8, isSeq⟩
  else if v = 5 then .ok ⟨.u64, isSeq⟩
  else if v = 6 then .ok ⟨.u32, isSeq⟩
  else if v = 7 then .ok ⟨.u16, isSeq⟩
  else if v = 8 then .ok ⟨.u8, isSeq⟩
  else if v = 9 then .ok ⟨.f64, isSeq⟩
  else if v = 10 then .ok ⟨.str, isSeq⟩
  else if v = 11 then .ok ⟨.bool, isSeq⟩
  else if v = 12 then .ok ⟨.obj, isSeq⟩
  else .error (.format "Unknown value Marker")

/-- The tag-to-inner-type map of the marker numeric table (tags 1 through
12; other arguments are never used). -/
def innerOfTag : Nat → InnerMarker
  | 1 => .i64 | 2 => .i32 | 3 => .i16 | 4 => .i8
  | 5 => .u64 | 6 => .u32 | 7 => .u16 | 8 => .u8
  | 9 => .f64 | 10 => .str | 11 => .bool | 12 => .obj
  | _ => .i64

/-! ## Value write path (src/src/value.rs and src/src/lib.rs)

The sealed `EpeeValue` trait fixes, per value type, a constant marker, a
`should_write` predicate (defaulting to `true`) and a `write` operation.
A `ValueCodec` bundles exactly those three members; each Rust impl below
is one `ValueCodec` value. -/

/-- The write-side members of one `EpeeValue` impl. -/
structure ValueCodec (α : Type) where
  marker : Marker
  shouldWrite : α → Bool
  writeVal : α → List Nat → WOut

/-- `write_field_name` of src/src/lib.rs: `val.len().try_into()?` fails
with `Value("Int is too large")` for names longer than 255 bytes, then the
length byte and the name bytes are appended. -/
def writeFieldName (name : List Nat) (w : List Nat) : WOut :=
  if name.length ≤ 255 then .ok (w ++ name.length :: name)
  else .err (.val "Int is too large")

/-- `write_epee_value` of src/src/lib.rs: the static marker byte of the
type followed by the value payload. -/
def writeEpeeValue (c : ValueCodec α) (v : α) (w : List Nat) : WOut :=
  c.writeVal v (w ++ [c.marker.asU8])

/-- `write_field` of src/src/lib.rs: when `should_write` holds, emit the
field name then marker and payload; otherwise emit nothing. -/
def writeField (c : ValueCodec α) (v : α) (name : List Nat) (w : List Nat) : WOut :=
  if c.shouldWrite v then
    WOut.andThen (writeFieldName name w) (writeEpeeValue c v)
  else .ok w

/-- `EpeeValue for u8`: marker tag 8, one byte (`to_le_bytes` of the `u8`,
hence the `% 256`), default `should_write`. -/
def u8Codec : ValueCodec Nat :=
  { marker := Marker.new .u8
    shouldWrite := fun _ => true
    writeVal := fun v w => .ok (w ++ [v % 256]) }

/-- `EpeeValue for u64`: marker tag 5, eight bytes little-endian, default
`should_write`. -/
def u64Codec : ValueCodec Nat :=
  { marker := Marker.new .u64
    shouldWrite := fun _ => true
    writeVal := fun v w => .ok (w ++ leBytes 8 v) }

/-- `EpeeValue for Vec<u8>` (the byte-string impl, src/src/value.rs):
marker 10, varint length then the raw bytes.  It does NOT override
`should_write`, so the trait default `true` applies even to an empty
byte-string. -/
def vecU8Codec : ValueCodec (List Nat) :=
  { marker := Marker.new .str
    shouldWrite := fun _ => true
    writeVal := fun v w => .ok (w ++ writeVarint v.length ++ v.map (· % 256)) }

/-- Element-wise write loop shared by the sequence impls (`epee_seq!`,
`Vec<T: EpeeObject>`): each element is written with no per-element
marker. -/
def vecWriteElems (c : ValueCodec α) : List α → List Nat → WOut
  | [], w => .ok w
  | x :: xs, w => WOut.andThen (c.writeVal x w) (vecWriteElems c xs)

/-- The sequence impl generated by `epee_seq!` (and the identical
`Vec<T: EpeeObject>` impl): marker `into_seq` of the element marker,
`should_write` is `!self.is_empty()`, and `write` is a varint element
count followed by the elements. -/
def vecCodec (c : ValueCodec α) : ValueCodec (List α) :=
  { marker := c.marker.intoSeq
    shouldWrite := fun l => !l.isEmpty
    writeVal := fun l w => vecWriteElems c l (w ++ writeVarint l.length) }

/-- `Option::should_write` (src/src/value.rs): `false` for `None`,
otherwise the inner predicate. -/
def optionShouldWrite (sw : α → Bool) : Option α → Bool
  | some t => sw t
  | none => false

/-- `Option::write` (src/src/value.rs): writes the inner value for `Some`;
the `None` branch is the Rust panic, modelled by `WOut.panicked`. -/
def optionWrite (wr : α → List Nat → WOut) : Option α → List Nat → WOut
  | some t, w => wr t w
  | none, _ => .panicked

/-- `EpeeValue for Option<T>`: the inner marker, `should_write` false on
`None`, `write` panics on `None`. -/
def optionCodec (c : ValueCodec α) : ValueCodec (Option α) :=
  { marker := c.marker
    shouldWrite := optionShouldWrite c.shouldWrite
    writeVal := optionWrite c.writeVal }

/-- A codec whose `write` can never reach a panic, on any value.  Every
impl of the sealed trait except `Option` satisfies this: their `write`
bodies contain no panic. -/
abbrev NeverPanics (c : ValueCodec α) : Prop :=
  ∀ v w, c.writeVal v w ≠ WOut.panicked

/-- The panic-freedom contract of the sealed `EpeeValue` family: `write`
does not panic on any value that `should_write` admits.  `write_field`
only calls `write` under `should_write`, so this is the invariant that
keeps the `Option::write` panic unreachable, including through nested
`Option` layers. -/
abbrev PanicFree (c : ValueCodec α) : Prop :=
  ∀ v w, c.shouldWrite v = true → c.writeVal v w ≠ WOut.panicked

/-! ## Value read path -/

/-- `u8::read`: the stream marker must equal the static `u8` marker, then
one little-endian byte. -/
def u8Read (marker : Marker) (input : List Nat) : Except Err (Nat × List Nat) :=
  if marker ≠ Marker.new .u8 then .error (.format "Marker does not match expected Marker")
  else readByte input

/-- Little-endian recomposition (`from_le_bytes`). -/
def fromLE : List Nat → Nat
  | [] => 0
  | b :: r => b % 256 + 256 * fromLE r

/-- `u64::read`: marker check then eight little-endian bytes. -/
def u64Read (marker : Marker) (input : List Nat) : Except Err (Nat × List Nat) :=
  if marker ≠ Marker.new .u64 then .error (.format "Marker does not match expected Marker")
  else
    match readExactN 8 input with
    | .error e => .error e
    | .ok (bs, r) => .ok (fromLE bs, r)

/-- `Option<T>::read` (src/src/value.rs): always reads the inner value and
wraps it in `Some`. -/
def optionRead (rd : Marker → List Nat → Except Err (α × List Nat))
    (marker : Marker) (input : List Nat) : Except Err (Option α × List Nat) :=
  match rd marker input with
  | .error e => .error e
  | .ok (v, r) => .ok (some v, r)

/-- `Vec<u8>::read` (the byte-string impl): marker check against the plain
string marker, varint length, maximum-length check, then the raw bytes. -/
def vecU8Read (marker : Marker) (input : List Nat) : Except Err (List Nat × List Nat) :=
  if marker ≠ Marker.new .str then .error (.format "Marker does not match expected Marker")
  else
    match readVarint input with
    | .error e => .error e
    | .ok (len, r) =>
      if len > 2000000000 then .error (.format "Byte array exceeded max length")
      else readExactN len r

/-- Element loop of the sequence reads: `count` elements, each read with
the per-element marker (no per-element marker byte on the wire). -/
def vecReadLoop (rd : Marker → List Nat → Except Err (α × List Nat))
    (individualMarker : Marker) : Nat → List Nat → Except Err (List α × List Nat)
  | 0, input => .ok ([], input)
  | n + 1, input =>
    match rd individualMarker input with
    | .error e => .error e
    | .ok (v, r) =>
      match vecReadLoop rd individualMarker n r with
      | .error e => .error e
      | .ok (vs, r2) => .ok (v :: vs, r2)

/-- The sequence read shared by `epee_seq!` and `Vec<T: EpeeObject>`
(src/src/value.rs): the stream marker must have its sequence bit set, a
varint element count follows, and each element is read with
`Marker::new(marker.inner_marker)` — so a count of zero succeeds for any
inner tag. -/
def vecReadG (rd : Marker → List Nat → Except Err (α × List Nat))
    (marker : Marker) (input : List Nat) : Except Err (List α × List Nat) :=
  if !marker.isSeq then
    .error (.format "Marker is not sequence when a sequence was expected")
  else
    match readVarint input with
    | .error e => .error e
    | .ok (len, r) => vecReadLoop rd (Marker.new marker.innerMarker) len r

/-- `read_epee_value` of src/src/lib.rs: read the marker byte, then the
value with that marker. -/
def readEpeeValueG (rd : Marker → List Nat → Except Err (α × List Nat))
    (input : List Nat) : Except Err (α × List Nat) :=
  match readByte input with
  | .error e => .error e
  | .ok (b, r) =>
    match markerTryFrom b with
    | .error e => .error e
    | .ok marker => rd marker r

/-! ## Unknown-field skipping (src/src/lib.rs `skip_epee_value` and the
`SkipObject` helper)

The Rust functions recurse through the reader; the embedding adds a fuel
argument (first position, decremented on every call) to make them total.
Fuel exhaustion is the `none` result, distinct from every value the Rust
code can produce; all theorems below supply sufficient fuel. -/

/-- Result of a skip: remaining input or an error; `none` is fuel
exhaustion (no Rust counterpart). -/
def SkipRes : Type := Option (Except Err (List Nat))

/-- `?` propagation on skip results: continue with the remaining input on
success. -/
def SkipRes.andThen : SkipRes → (List Nat → SkipRes) → SkipRes
  | none, _ => none
  | some (.error e), _ => some (.error e)
  | some (.ok r), f => f r

mutual

/-- `skip_epee_value`: read the marker; a sequence additionally carries a
varint element count (otherwise one value follows); consume that many
values. -/
def skipValue : Nat → List Nat → Nat → SkipRes
  | 0, _, _ => none
  | fuel + 1, input, depth =>
    match readByte input with
    | .error e => some (.error e)
    | .ok (b, r) =>
      match markerTryFrom b with
      | .error e => some (.error e)
      | .ok marker =>
        if marker.isSeq then
          match readVarint r with
          | .error e => some (.error e)
          | .ok (len, r2) => skipCount fuel len marker r2 depth
        else skipCount fuel 1 marker r depth

/-- The `for _ in 0..len` loop of `skip_epee_value`. -/
def skipCount : Nat → Nat → Marker → List Nat → Nat → SkipRes
  | 0, _, _, _, _ => none
  | _ + 1, 0, _, input, _ => some (.ok input)
  | fuel + 1, n + 1, marker, input, depth =>
    (skipOne fuel marker input depth).andThen fun r =>
      skipCount fuel n marker r depth

/-- One iteration of the skip loop: fixed-width primitives are consumed by
width; a string value is consumed through `Vec::<u8>::read` (which checks
the full marker, so a sequence-of-string marker fails there); an object
increments the depth counter, fails `Format` when it would exceed 20, and
recurses into a skip-only object read (the counter is decremented after
the recursion, which the by-value `depth` models). -/
def skipOne : Nat → Marker → List Nat → Nat → SkipRes
  | 0, _, _, _ => none
  | fuel + 1, marker, input, depth =>
    match marker.innerMarker with
    | .i64 | .u64 | .f64 =>
      match readExactN 8 input with
      | .error e => some (.error e)
      | .ok (_, r) => some (.ok r)
    | .i32 | .u32 =>
      match readExactN 4 input with
      | .error e => some (.error e)
      | .ok (_, r) => some (.ok r)
    | .i16 | .u16 =>
      match readExactN 2 input with
      | .error e => some (.error e)
      | .ok (_, r) => some (.ok r)
    | .i8 | .u8 | .bool =>
      match readExactN 1 input with
      | .error e => some (.error e)
      | .ok (_, r) => some (.ok r)
    | .str =>
      match vecU8Read marker input with
      | .error e => some (.error e)
      | .ok (_, r) => some (.ok r)
    | .obj =>
      if depth + 1 > 20 then
        some (.error (.format "Depth of skipped objects exceeded maximum"))
      else skipObjectBody fuel input (depth + 1)

/-- `read_object::<SkipObject>`: varint field count, then that many
(name, value) pairs, every one skipped. -/
def skipObjectBody : Nat → List Nat → Nat → SkipRes
  | 0, _, _ => none
  | fuel + 1, input, depth =>
    match readVarint input with
    | .error e => some (.error e)
    | .ok (n, r) => skipFields fuel n r depth

/-- The field loop of `read_object::<SkipObject>`: read the field name
(`SkipObjectBuilder::add_field` always answers `false`), skip the value,
repeat. -/
def skipFields : Nat → Nat → List Nat → Nat → SkipRes
  | 0, _, _, _ => none
  | _ + 1, 0, input, _ => some (.ok input)
  | fuel + 1, n + 1, input, depth =>
    match readByte input with
    | .error e => some (.error e)
    | .ok (len, r) =>
      match readStringB len r with
      | .error e => some (.error e)
      | .ok (_, r1) =>
        (skipValue fuel r1 depth).andThen fun r2 =>
          skipFields fuel n r2 depth

end

/-! ## Object engine (src/src/lib.rs) -/

/-- The nine header bytes `01 11 01 01 01 01 02 01 01`. -/
def HEADER : List Nat := [1, 0x11, 1, 1, 1, 1, 2, 1, 1]

/-- `read_field_name`: a one-byte length then that many bytes through
`read_string` (UTF-8 validated). -/
def readFieldName (input : List Nat) : Except Err (List Nat × List Nat) :=
  match readByte input with
  | .error e => .error e
  | .ok (len, r) => readStringB len r

/-- `?` propagation from a skip into the rest of a field loop. -/
def SkipRes.through (s : SkipRes) (f : List Nat → Option (Except Err α)) :
    Option (Except Err α) :=
  match s with
  | none => none
  | some (.error e) => some (.error e)
  | some (.ok r) => f r

/-- The field loop of `read_object`: for each of `n` fields read the name
and hand it to the builder; when the builder answers `false` the value is
skipped with the shared depth counter.  `addF` is the builder contract
`add_field(name, reader)` returning whether the field was consumed,
together with the updated builder state and reader. -/
def readFieldsG (fuel : Nat) (addF : β → List Nat → List Nat → Except Err (Bool × β × List Nat)) :
    Nat → β → List Nat → Nat → Option (Except Err (β × List Nat))
  | 0, b, input, _ => some (.ok (b, input))
  | n + 1, b, input, depth =>
    match readFieldName input with
    | .error e => some (.error e)
    | .ok (name, r) =>
      match addF b name r with
      | .error e => some (.error e)
      | .ok (true, b2, r2) => readFieldsG fuel addF n b2 r2 depth
      | .ok (false, b2, r2) =>
        (skipValue fuel r2 depth).through fun r3 =>
          readFieldsG fuel addF n b2 r3 depth
  termination_by structural n => n

/-- `Builder::finish` applied to the outcome of the field loop. -/
def objFinish (finishF : β → Except Err γ) :
    Option (Except Err (β × List Nat)) → Option (Except Err (γ × List Nat))
  | none => none
  | some (.error e) => some (.error e)
  | some (.ok (b, r2)) =>
    match finishF b with
    | .error e => some (.error e)
    | .ok v => some (.ok (v, r2))

/-- `read_object`: default builder, varint field count, the field loop,
then `Builder::finish`. -/
def readObjectG (fuel : Nat) (dflt : β)
    (addF : β → List Nat → List Nat → Except Err (Bool × β × List Nat))
    (finishF : β → Except Err γ) (input : List Nat) (depth : Nat) :
    Option (Except Err (γ × List Nat)) :=
  match readVarint input with
  | .error e => some (.error e)
  | .ok (n, r) => objFinish finishF (readFieldsG fuel addF n dflt r depth)

/-- Dropping the ignored trailing bytes from the root-object result. -/
def headResult : Option (Except Err (γ × List Nat)) → Option (Except Err γ)
  | none => none
  | some (.error e) => some (.error e)
  | some (.ok (v, _)) => some (.ok v)

/-- `from_bytes` / `read_head_object`: verify the nine header bytes, then
read the root object with the skipped-object counter at zero; trailing
bytes are ignored.  The fuel `4 * input.length + 16` bounds the skip
recursion; every recursive call consumes input, so any larger value
computes the same result. -/
def fromBytesG (dflt : β)
    (addF : β → List Nat → List Nat → Except Err (Bool × β × List Nat))
    (finishF : β → Except Err γ) (input : List Nat) : Option (Except Err γ) :=
  match readExactN 9 input with
  | .error e => some (.error e)
  | .ok (h, r) =>
    if h ≠ HEADER then some (.error (.format "Data does not contain header"))
    else headResult (readObjectG (4 * input.length + 16) dflt addF finishF r 0)

/-! ## Derived records

Each record mirrors the code the derive macro of
src/epee-encoding-derive/src/lib.rs generates for the struct declaration:
a builder whose slots are `Option` values initialised to `None` (or a
declared default), `number_of_fields` starting from the static field count
with a decrement only for default-equal fields and flatten adjustments, a
`write_fields` that calls `write_field` per field, and a `finish` that
fails `Format("Required field was not found!")` on any unset slot. -/

/-- `to_bytes` for a record: the header, a varint of
`number_of_fields()`, then `write_fields` (src/src/lib.rs
`write_head_object` and the `EpeeValue for T: EpeeObject` write). -/
def toBytesG (numberOfFields : Nat) (writeFields : List Nat → WOut) : WOut :=
  writeFields (HEADER ++ writeVarint numberOfFields)

/-- The struct `T { val: Option<u8> }` of tests/options.rs. -/
structure TOpt where
  val : Option Nat
deriving DecidableEq, Repr

/-- Derived `number_of_fields` for `TOpt`: the static count 1 with no
adjustment — the macro emits decrements only for `epee_default` fields and
flattened children, none for an absent `Option`. -/
def TOpt.numberOfFields (_ : TOpt) : Nat := 1

/-- Derived `write_fields` for `TOpt`: `write_field(&self.val, "val", w)`;
the name "val" is the bytes `[118, 97, 108]`. -/
def TOpt.writeFields (t : TOpt) (w : List Nat) : WOut :=
  writeField (optionCodec u8Codec) t.val [118, 97, 108] w

/-- Derived `to_bytes` for `TOpt`. -/
def TOpt.toBytes (t : TOpt) : WOut :=
  toBytesG t.numberOfFields t.writeFields

/-- Derived builder `add_field` for `TOpt`: name "val" reads an
`Option<u8>` value into the slot, any other name answers `false`. -/
def TOpt.addField (b : Option (Option Nat)) (name : List Nat) (r : List Nat) :
    Except Err (Bool × Option (Option Nat) × List Nat) :=
  if name = [118, 97, 108] then
    match readEpeeValueG (optionRead u8Read) r with
    | .error e => .error e
    | .ok (v, r2) => .ok (true, some v, r2)
  else .ok (false, b, r)

/-- Derived builder `finish` for `TOpt`: the slot is required —
`self.val.ok_or_else(.. "Required field was not found!")`; the generated
code never consults `epee_default_value`. -/
def TOpt.finishB (b : Option (Option Nat)) : Except Err TOpt :=
  match b with
  | some v => .ok ⟨v⟩
  | none => .error (.format "Required field was not found!")

/-- Derived `from_bytes` for `TOpt` (builder slot starts at `None`). -/
def TOpt.fromBytes (input : List Nat) : Option (Except Err TOpt) :=
  fromBytesG none TOpt.addField TOpt.finishB input

/-- A record declaring no fields (the "empty record" the spec decodes
unknown-field documents into, scenario S8). -/
structure EmptyRec where
deriving DecidableEq, Repr

/-- Derived builder `add_field` for `EmptyRec`: no name matches. -/
def EmptyRec.addField (b : Unit) (_ : List Nat) (r : List Nat) :
    Except Err (Bool × Unit × List Nat) :=
  .ok (false, b, r)

/-- Derived `from_bytes` for `EmptyRec`: every field of the document is
skipped. -/
def EmptyRec.fromBytes (input : List Nat) : Option (Except Err EmptyRec) :=
  fromBytesG () EmptyRec.addField (fun _ => .ok ⟨⟩) input

/-- The record `{ val: u64, other: u64 }` of scenario S7, neither field
carrying a default. -/
structure TwoU64 where
  val : Nat
  other : Nat
deriving DecidableEq, Repr

/-- Derived builder `add_field` for `TwoU64`. -/
def TwoU64.addField (b : Option Nat × Option Nat) (name : List Nat) (r : List Nat) :
    Except Err (Bool × (Option Nat × Option Nat) × List Nat) :=
  if name = [118, 97, 108] then
    match readEpeeValueG u64Read r with
    | .error e => .error e
    | .ok (v, r2) => .ok (true, (some v, b.2), r2)
  else if name = [111, 116, 104, 101, 114] then
    match readEpeeValueG u64Read r with
    | .error e => .error e
    | .ok (v, r2) => .ok (true, (b.1, some v), r2)
  else .ok (false, b, r)

/-- Derived builder `finish` for `TwoU64`: both slots required. -/
def TwoU64.finishB (b : Option Nat × Option Nat) : Except Err TwoU64 :=
  match b.1 with
  | none => .error (.format "Required field was not found!")
  | some v =>
    match b.2 with
    | none => .error (.format "Required field was not found!")
    | some o => .ok ⟨v, o⟩

/-- Derived `from_bytes` for `TwoU64`. -/
def TwoU64.fromBytes (input : List Nat) : Option (Except Err TwoU64) :=
  fromBytesG (none, none) TwoU64.addField TwoU64.finishB input

/-- A record `{ v: Vec<u8> }`: one byte-string field, no attributes. -/
structure RecVecU8 where
  v : List Nat
deriving DecidableEq, Repr

/-- Derived `number_of_fields` for `RecVecU8`: the static count 1, no
adjustments. -/
def RecVecU8.numberOfFields (_ : RecVecU8) : Nat := 1

/-- Derived `write_fields` for `RecVecU8`: `write_field(&self.v, "v", w)`
through the `Vec<u8>` byte-string impl. -/
def RecVecU8.writeFields (t : RecVecU8) (w : List Nat) : WOut :=
  writeField vecU8Codec t.v [118] w

/-- Derived `to_bytes` for `RecVecU8`. -/
def RecVecU8.toBytes (t : RecVecU8) : WOut :=
  toBytesG t.numberOfFields t.writeFields

/-- A record `{ v: Vec<u64> }`: one sequence field, no attributes. -/
structure RecVecU64 where
  v : List Nat
deriving DecidableEq, Repr

/-- Derived `number_of_fields` for `RecVecU64`: the static count 1, no
adjustments — in particular no decrement when the sequence is empty. -/
def RecVecU64.numberOfFields (_ : RecVecU64) : Nat := 1

/-- Derived `write_fields` for `RecVecU64`: `write_field` through the
`epee_seq!` impl for `Vec<u64>`, which suppresses the field when empty. -/
def RecVecU64.writeFields (t : RecVecU64) (w : List Nat) : WOut :=
  writeField (vecCodec u64Codec) t.v [118] w

/-- Derived `to_bytes` for `RecVecU64`. -/
def RecVecU64.toBytes (t : RecVecU64) : WOut :=
  toBytesG t.numberOfFields t.writeFields

/-- The field count the spec formula assigns to `TOpt` (stated from the
spec words for comparison with the derived count): the static count 1
minus one when the `Option` field is absent. -/
def TOpt.numberOfFieldsSpec (t : TOpt) : Nat :=
  1 - (if t.val = none then 1 else 0)

/-- The field count the spec formula assigns to `RecVecU64` (stated from
the spec words for comparison with the derived count): the static count 1
minus one when the sequence field is empty. -/
def RecVecU64.numberOfFieldsSpec (t : RecVecU64) : Nat :=
  1 - (if t.v = [] then 1 else 0)

/-- A wire value nesting `k + 1` object levels: the object marker byte 12
followed by either a varint field count 0 (innermost) or a varint field
count 1, the field name "a" (length byte 1, byte 97), and a value nesting
one level fewer. -/
def nestedObj : Nat → List Nat
  | 0 => [12, 0]
  | k + 1 => 12 :: 4 :: 1 :: 97 :: nestedObj k

/-- A root document: header, one field named "a" whose value nests
`k + 1` object levels (unknown to `EmptyRec`, hence skipped). -/
def nestedDoc (k : Nat) : List Nat := HEADER ++ [4, 1, 97] ++ nestedObj k

/-! ## Helper lemmas -/

/-- Disjoint or is addition: a value below `2 ^ s` ored with a multiple of
`2 ^ s`. -/
theorem lor_mul_pow : ∀ (s a b : Nat), a < 2 ^ s → a ||| b * 2 ^ s = a + b * 2 ^ s := by
  intro s
  induction s with
  | zero =>
    intro a b h
    have : a = 0 := by omega
    subst this
    simp
  | succ s ih =>
    intro a b h
    have hd : Nat.div2 a < 2 ^ s := by
      rw [Nat.div2_val]
      rw [pow_succ] at h
      exact Nat.div_lt_of_lt_mul (by omega)
    have hb : b * 2 ^ (s + 1) = Nat.bit false (b * 2 ^ s) := by
      simp [Nat.bit_val, pow_succ]
      ring
    conv_lhs => rw [← Nat.bit_decomp a, hb, Nat.lor_bit]
    rw [Bool.or_false, ih (Nat.div2 a) b hd, Nat.bit_val]
    have ha := Nat.bodd_add_div2 a
    calc 2 * (Nat.div2 a + b * 2 ^ s) + (Nat.bodd a).toNat
        = ((Nat.bodd a).toNat + 2 * Nat.div2 a) + b * (2 ^ s * 2) := by ring
      _ = a + b * 2 ^ (s + 1) := by rw [ha, pow_succ]

/-- The shifted form of `lor_mul_pow`, as it appears in the varint read
loop. -/
theorem lor_shift (a b s : Nat) (h : a < 2 ^ s) : a ||| b <<< s = a + b * 2 ^ s := by
  rw [Nat.shiftLeft_eq]
  exact lor_mul_pow s a b h

/-- A width-`w` little-endian encoding is `w` bytes long. -/
theorem leBytes_length : ∀ (w x : Nat), (leBytes w x).length = w := by
  intro w
  induction w with
  | zero => intro x; rfl
  | succ w ih => intro x; simp [leBytes, ih]

/-- The varint read loop recombines a little-endian tail: starting from
accumulator `vi` at loop index `i`, reading the `w` bytes of `x` yields
`vi + x * 2 ^ ((i-1)*8 + 6)`. -/
theorem readVarintLoop_leBytes :
    ∀ (w i vi x : Nat) (rest : List Nat), 1 ≤ i → x < 2 ^ (8 * w) →
      vi < 2 ^ ((i - 1) * 8 + 6) →
      readVarintLoop w i vi (leBytes w x ++ rest) =
        .ok (vi + x * 2 ^ ((i - 1) * 8 + 6), rest) := by
  intro w
  induction w with
  | zero =>
    intro i vi x rest hi hx hvi
    have : x = 0 := by omega
    subst this
    simp [leBytes, readVarintLoop]
  | succ w ih =>
    intro i vi x rest hi hx hvi
    have hstep : vi ||| (x % 256) <<< ((i - 1) * 8 + 6) =
        vi + (x % 256) * 2 ^ ((i - 1) * 8 + 6) := lor_shift _ _ _ hvi
    have hmod : x % 256 < 256 := Nat.mod_lt _ (by omega)
    have hbound : vi + (x % 256) * 2 ^ ((i - 1) * 8 + 6) < 2 ^ ((i - 1) * 8 + 6 + 8) := by
      have h1 : (x % 256) * 2 ^ ((i - 1) * 8 + 6) ≤ 255 * 2 ^ ((i - 1) * 8 + 6) :=
        Nat.mul_le_mul_right _ (by omega)
      have h2 : vi + (x % 256) * 2 ^ ((i - 1) * 8 + 6) <
          2 ^ ((i - 1) * 8 + 6) + 255 * 2 ^ ((i - 1) * 8 + 6) := by omega
      calc vi + (x % 256) * 2 ^ ((i - 1) * 8 + 6)
          < 2 ^ ((i - 1) * 8 + 6) + 255 * 2 ^ ((i - 1) * 8 + 6) := h2
        _ = 2 ^ ((i - 1) * 8 + 6) * 2 ^ 8 := by ring
        _ = 2 ^ ((i - 1) * 8 + 6 + 8) := by rw [← pow_add]
    have hdiv : x / 256 < 2 ^ (8 * w) := by
      have h8 : (8 : Nat) * (w + 1) = 8 * w + 8 := by ring
      rw [h8, pow_add] at hx
      exact Nat.div_lt_of_lt_mul (by omega)
    have hshift : (i + 1 - 1) * 8 + 6 = (i - 1) * 8 + 6 + 8 := by omega
    simp only [leBytes, List.cons_append, readVarintLoop, readByte]
    rw [hstep]
    rw [ih (i + 1) _ (x / 256) rest (by omega) hdiv (by rw [hshift]; exact hbound)]
    rw [hshift]
    have hx256 : x % 256 + 256 * (x / 256) = x := Nat.mod_add_div x 256
    have hval : vi + x % 256 * 2 ^ ((i - 1) * 8 + 6) + x / 256 * 2 ^ ((i - 1) * 8 + 6 + 8)
        = vi + x * 2 ^ ((i - 1) * 8 + 6) := by
      calc vi + x % 256 * 2 ^ ((i - 1) * 8 + 6) + x / 256 * 2 ^ ((i - 1) * 8 + 6 + 8)
          = vi + (x % 256 + 256 * (x / 256)) * 2 ^ ((i - 1) * 8 + 6) := by
            rw [pow_add]; ring
        _ = vi + x * 2 ^ ((i - 1) * 8 + 6) := by rw [hx256]
    rw [hval]

/-- `4 * n ||| m` for a two-bit `m` is `4 * n + m` (the size-marker
insertion of `write_varint`). -/
theorem four_mul_lor (n m : Nat) (hm : m < 4) : 4 * n ||| m = 4 * n + m := by
  rw [Nat.lor_comm]
  have h := lor_mul_pow 2 m n (by omega)
  norm_num at h
  rw [mul_comm n 4] at h
  rw [h]; ring

/-- `read_varint` on a multi-byte little-endian encoding: the first byte
fixes the width via its low two bits, the remaining `w` bytes are
recombined by the loop. -/
theorem readVarint_leBytes_succ (w x : Nat) (rest : List Nat)
    (hdiv : x / 256 < 2 ^ (8 * w))
    (hlen : (if x % 256 % 4 = 0 then 1
             else if x % 256 % 4 = 1 then 2
             else if x % 256 % 4 = 2 then 4 else 8) - 1 = w) :
    readVarint (leBytes (w + 1) x ++ rest) =
      .ok (x % 256 / 4 + x / 256 * 64, rest) := by
  simp only [leBytes, List.cons_append, readVarint, readByte]
  rw [hlen]
  have hvi : (x % 256) >>> 2 = x % 256 / 4 := by
    rw [Nat.shiftRight_eq_div_pow]
  rw [hvi]
  have hviBound : x % 256 / 4 < 2 ^ ((1 - 1) * 8 + 6) := by
    have hx : x % 256 < 256 := Nat.mod_lt _ (by omega)
    have he : ((1 : Nat) - 1) * 8 + 6 = 6 := by norm_num
    rw [he]
    omega
  rw [readVarintLoop_leBytes w 1 (x % 256 / 4) (x / 256) rest (by omega) hdiv hviBound]
  norm_num

/-- One unfolding step of `skip_epee_value` at an object marker byte. -/
theorem skipValue_obj12 (f : Nat) (input : List Nat) (d : Nat) :
    skipValue (f + 1) (12 :: input) d = skipCount f 1 ⟨.obj, false⟩ input d := by
  simp [skipValue, readByte, markerTryFrom, show (12 &&& 128 : Nat) = 0 from rfl]

/-- A one-element skip loop runs the single element and stops. -/
theorem skipCount_one_obj (f : Nat) (input : List Nat) (d : Nat) :
    skipCount (f + 2) 1 (⟨.obj, false⟩ : Marker) input d =
      SkipRes.andThen (skipOne (f + 1) ⟨.obj, false⟩ input d) (fun r => some (.ok r)) := by
  simp only [skipCount]

/-- Skipping one object value: the depth check guards the recursion. -/
theorem skipOne_obj (f : Nat) (input : List Nat) (d : Nat) :
    skipOne (f + 1) (⟨.obj, false⟩ : Marker) input d =
      (if d + 1 > 20 then
        some (.error (.format "Depth of skipped objects exceeded maximum"))
      else skipObjectBody f input (d + 1)) := by
  simp only [skipOne]

/-- A skipped object with field count 0 consumes only its varint. -/
theorem skipObjectBody_zero (f : Nat) (rest : List Nat) (d : Nat) :
    skipObjectBody (f + 2) (0 :: rest) d = some (.ok rest) := by
  simp [skipObjectBody, readVarint, readByte, readVarintLoop, skipFields]

/-- A skipped object with field count 1 proceeds into its field loop. -/
theorem skipObjectBody_one4 (f : Nat) (t : List Nat) (d : Nat) :
    skipObjectBody (f + 1) (4 :: t) d = skipFields f 1 t d := by
  simp [skipObjectBody, readVarint, readByte, readVarintLoop]

/-- Skipping one field named "a" reduces to skipping its value. -/
theorem skipFields_one97 (f : Nat) (body : List Nat) (d : Nat) :
    skipFields (f + 2) 1 (1 :: 97 :: body) d =
      SkipRes.andThen (skipValue (f + 1) body d) (fun r2 => some (.ok r2)) := by
  simp [skipFields, readByte, readStringB, readExactN, show utf8Valid [97] = true from rfl]

/-- Success propagation of the skip sequencing. -/
theorem andThen_ok (r : List Nat) (f : List Nat → SkipRes) :
    SkipRes.andThen (some (.ok r)) f = f r := rfl

/-- Error propagation of the skip sequencing. -/
theorem andThen_err (e : Err) (f : List Nat → SkipRes) :
    SkipRes.andThen (some (.error e)) f = some (.error e) := rfl

/-- Skipping a value that nests `k + 1` object levels from depth `depth`:
with sufficient fuel, the skip succeeds exactly when the innermost level
stays within the bound of 20, and otherwise fails with the depth error.
The recursion passes `depth + 1` only into the nested skip, which models
the increment before and the decrement after the Rust recursion. -/
theorem skipValue_nestedObj :
    ∀ (k fuel depth : Nat) (rest : List Nat), 5 * k + 5 ≤ fuel →
      skipValue fuel (nestedObj k ++ rest) depth =
        (if depth + k + 1 ≤ 20 then some (.ok rest)
         else some (.error (.format "Depth of skipped objects exceeded maximum"))) := by
  intro k
  induction k with
  | zero =>
    intro fuel depth rest hfuel
    obtain ⟨g, rfl⟩ : ∃ g, fuel = g + 5 := ⟨fuel - 5, by omega⟩
    show skipValue ((g + 4) + 1) (12 :: 0 :: rest) depth = _
    rw [skipValue_obj12]
    rw [show (g + 4 : Nat) = (g + 2) + 2 from rfl, skipCount_one_obj]
    rw [show (g + 2 + 1 : Nat) = (g + 2) + 1 from rfl, skipOne_obj]
    by_cases hd : depth + 1 > 20
    · rw [if_pos hd, andThen_err, if_neg (by omega)]
    · rw [if_neg hd, skipObjectBody_zero, andThen_ok, if_pos (by omega)]
  | succ k ih =>
    intro fuel depth rest hfuel
    obtain ⟨g, rfl⟩ : ∃ g, fuel = g + 6 := ⟨fuel - 6, by omega⟩
    show skipValue ((g + 5) + 1) (12 :: 4 :: 1 :: 97 :: (nestedObj k ++ rest)) depth = _
    rw [skipValue_obj12]
    rw [show (g + 5 : Nat) = (g + 3) + 2 from rfl, skipCount_one_obj]
    rw [show (g + 3 + 1 : Nat) = (g + 3) + 1 from rfl, skipOne_obj]
    by_cases hd : depth + 1 > 20
    · rw [if_pos hd, andThen_err, if_neg (by omega)]
    · rw [if_neg hd, show (g + 3 : Nat) = (g + 2) + 1 from rfl, skipObjectBody_one4,
          skipFields_one97, ih (g + 1) (depth + 1) rest (by omega)]
      by_cases hin : depth + 1 + k + 1 ≤ 20
      · rw [if_pos hin, andThen_ok, andThen_ok, if_pos (by omega)]
      · rw [if_neg hin, andThen_err, andThen_err, if_neg (by omega)]

/-- Wire size of the nested-object value. -/
theorem nestedObj_length : ∀ k : Nat, (nestedObj k).length = 4 * k + 2 := by
  intro k
  induction k with
  | zero => rfl
  | succ k ih => simp [nestedObj, ih]; omega

/-- Decoding a one-unknown-field document as the empty record reduces to
skipping the field value. -/
theorem emptyRec_pipeline (body : List Nat) :
    EmptyRec.fromBytes (HEADER ++ 4 :: 1 :: 97 :: body) =
      headResult (objFinish (fun _ => Except.ok ⟨⟩)
        (SkipRes.through
          (skipValue (4 * (HEADER ++ 4 :: 1 :: 97 :: body).length + 16) body 0)
          (fun r3 => readFieldsG (4 * (HEADER ++ 4 :: 1 :: 97 :: body).length + 16)
            EmptyRec.addField 0 () r3 0))) := rfl

/-- Skipping a bool value consumes its single byte. -/
theorem skipValue_bool (f : Nat) (rest : List Nat) (d : Nat) :
    skipValue (f + 3) (11 :: 1 :: rest) d = some (.ok rest) := by
  simp [skipValue, readByte, markerTryFrom, show (11 &&& 128 : Nat) = 0 from rfl,
    skipCount, skipOne, readExactN, SkipRes.andThen]

/-- `read_exact` of a length that equals the prefix length returns the
prefix. -/
theorem readExactN_append : ∀ (l t : List Nat), readExactN l.length (l ++ t) = .ok (l, t) := by
  intro l
  induction l with
  | nil => intro t; rfl
  | cons b r ih =>
    intro t
    simp only [List.length_cons, List.cons_append, readExactN, List.append_eq, ih]

/-- A `write` that never panics in particular never panics under the
`should_write` guard. -/
theorem panicFree_of_neverPanics {α : Type} {c : ValueCodec α}
    (h : NeverPanics c) : PanicFree c :=
  fun v w _ => h v w

/-- The `u8` write is a plain byte append: no panic. -/
theorem neverPanics_u8Codec : NeverPanics u8Codec :=
  fun v w => by simp [u8Codec]

/-- The `u64` write is a plain little-endian append: no panic. -/
theorem neverPanics_u64Codec : NeverPanics u64Codec :=
  fun v w => by simp [u64Codec]

/-- The `Vec<u8>` byte-string write is a varint plus raw bytes: no
panic. -/
theorem neverPanics_vecU8Codec : NeverPanics vecU8Codec :=
  fun v w => by simp [vecU8Codec]

/-- The element loop of a sequence write never panics when the element
write never panics. -/
theorem neverPanics_vecWriteElems {α : Type} {c : ValueCodec α}
    (h : NeverPanics c) : ∀ (l : List α) (w : List Nat),
      vecWriteElems c l w ≠ WOut.panicked := by
  intro l
  induction l with
  | nil => intro w; simp [vecWriteElems]
  | cons x xs ih =>
    intro w
    simp only [vecWriteElems]
    cases hx : c.writeVal x w with
    | ok w2 => simpa [WOut.andThen, hx] using ih w2
    | err e => simp [WOut.andThen, hx]
    | panicked => exact absurd hx (h x w)

/-- Sequence writes (`epee_seq!`, `Vec<T: EpeeObject>`) never panic when
the element write never panics. -/
theorem neverPanics_vecCodec {α : Type} {c : ValueCodec α}
    (h : NeverPanics c) : NeverPanics (vecCodec c) :=
  fun l w => by
    simp only [vecCodec]
    exact neverPanics_vecWriteElems h l _

/-! ## Claim theorems -/

/-- Claim C4: for every `n < 2 ^ 62`, reading back the output of
`write_varint(n)` yields `n` (for any trailing bytes), and the encoding
length follows the smallest-width rule: 1 byte when `n ≤ 63`, 2 when
`n ≤ 16383`, 4 when `n ≤ 2 ^ 30 - 1`, else 8. -/
theorem varint_roundtrip_and_length (n : Nat) (rest : List Nat) (h : n < 2 ^ 62) :
    readVarint (writeVarint n ++ rest) = .ok (n, rest) ∧
    (writeVarint n).length =
      (if n ≤ 63 then 1 else if n ≤ 16383 then 2
       else if n ≤ 2 ^ 30 - 1 then 4 else 8) := by
  have e : (n <<< 2) % 2 ^ 64 = 4 * n := by
    rw [Nat.shiftLeft_eq]
    have h2 : n * 2 ^ 2 = 4 * n := by ring
    rw [h2]
    exact Nat.mod_eq_of_lt (by omega)
  simp only [writeVarint, e]
  split_ifs with h1 h2 h3 <;> try omega
  all_goals try (exact False.elim (by assumption))
  -- width 1: n ≤ 63
  · rw [four_mul_lor n 0 (by omega)]
    constructor
    · simp only [leBytes, List.cons_append, List.nil_append, readVarint, readByte]
      have hm : (4 * n + 0) % 256 % 4 = 0 := by omega
      rw [hm]
      simp only [if_pos rfl]
      simp only [readVarintLoop]
      rw [Nat.shiftRight_eq_div_pow]
      have hv : (4 * n + 0) % 256 / 2 ^ 2 = n := by omega
      rw [hv]
    · simp [leBytes_length]
  -- width 2: 63 < n ≤ 16383
  · rw [four_mul_lor n 1 (by omega)]
    constructor
    · rw [show (2 : Nat) = 1 + 1 from rfl, readVarint_leBytes_succ 1 (4 * n + 1) rest
        (by omega)
        (by have hm : (4 * n + 1) % 256 % 4 = 1 := by omega
            rw [hm]; norm_num)]
      have hv : (4 * n + 1) % 256 / 4 + (4 * n + 1) / 256 * 64 = n := by omega
      rw [hv]
    · simp [leBytes_length]
  -- width 4: 16383 < n ≤ 2^30 - 1
  · rw [four_mul_lor n 2 (by omega)]
    constructor
    · rw [show (4 : Nat) = 3 + 1 from rfl, readVarint_leBytes_succ 3 (4 * n + 2) rest
        (by omega)
        (by have hm : (4 * n + 2) % 256 % 4 = 2 := by omega
            rw [hm]; norm_num)]
      have hv : (4 * n + 2) % 256 / 4 + (4 * n + 2) / 256 * 64 = n := by omega
      rw [hv]
    · simp [leBytes_length]
  -- width 8: n > 2^30 - 1
  · rw [four_mul_lor n 3 (by omega)]
    constructor
    · rw [show (8 : Nat) = 7 + 1 from rfl, readVarint_leBytes_succ 7 (4 * n + 3) rest
        (by omega)
        (by have hm : (4 * n + 3) % 256 % 4 = 3 := by omega
            rw [hm]; norm_num)]
      have hv : (4 * n + 3) % 256 / 4 + (4 * n + 3) / 256 * 64 = n := by omega
      rw [hv]
    · simp [leBytes_length]

/-- Witness for C4 at `n = 100` (a two-byte varint). -/
theorem varint_roundtrip_and_length_witness :
    100 < 2 ^ 62 ∧
    (readVarint (writeVarint 100 ++ []) = .ok (100, []) ∧
     (writeVarint 100).length =
       (if 100 ≤ 63 then 1 else if 100 ≤ 16383 then 2
        else if 100 ≤ 2 ^ 30 - 1 then 4 else 8)) :=
  ⟨by norm_num, varint_roundtrip_and_length 100 [] (by norm_num)⟩

/-- Claim C1 (code bug): for the record `{ val: Option<u8> }` with
`val = None`, the claim (and the repository test
tests/options.rs, `optional_val_not_in_data`) expects `to_bytes` to
produce the ten bytes ending in a field count 0 and `from_bytes` of those
bytes to round-trip.  The code evaluated at that input does neither: the
derived `number_of_fields` never decrements for an absent `Option`, so
`to_bytes` emits a field count 1 (final byte 04) and no field, and the
derived `finish` never consults `epee_default_value`, so `from_bytes` of
the claimed ten bytes fails `Format("Required field was not found!")`. -/
theorem tOpt_none_encode_and_decode_diverge :
    TOpt.toBytes ⟨none⟩ = WOut.ok (HEADER ++ [4]) ∧
    TOpt.fromBytes (HEADER ++ [0]) =
      some (.error (.format "Required field was not found!")) :=
  ⟨rfl, rfl⟩

/-- Claim C2 (code bug): the derived `number_of_fields` of the record
`{ val: Option<u8> }` at `val = None` is 1 while the claimed formula
yields 0, and likewise for `{ v: Vec<u64> }` at `v = []`; moreover for the
empty sequence the encoder then emits that count 1 with no field following
it, so the emitted varint is not the number of fields written. -/
theorem numberOfFields_no_option_or_empty_seq_decrement :
    TOpt.numberOfFields ⟨none⟩ = 1 ∧
    TOpt.numberOfFieldsSpec ⟨none⟩ = 0 ∧
    RecVecU64.numberOfFields ⟨[]⟩ = 1 ∧
    RecVecU64.numberOfFieldsSpec ⟨[]⟩ = 0 ∧
    RecVecU64.toBytes ⟨[]⟩ = WOut.ok (HEADER ++ [4]) :=
  ⟨rfl, rfl, rfl, rfl, rfl⟩

/-- Claim C3, counterexample: a record with a `Vec<u8>` byte-string field
whose value is empty.  The byte-string impl does not override
`should_write`, so `to_bytes` emits the field: the output contains the
name length 1, the name byte 118 ("v"), the string marker 10 and the
varint 0 payload — the claim says none of these may appear. -/
theorem toBytes_emits_empty_byte_string_field :
    RecVecU8.toBytes ⟨[]⟩ = WOut.ok (HEADER ++ [4, 1, 118, 10, 0]) ∧
    vecU8Codec.shouldWrite [] = true ∧
    118 ∈ HEADER ++ [4, 1, 118, 10, 0] :=
  ⟨rfl, rfl, by decide⟩

/-- Claim C3, amended: `write_field` emits nothing for an empty value of
any sequence-marked impl (the `epee_seq!` family and `Vec<T: EpeeObject>`,
whose `should_write` is `!is_empty`); plain `Vec<u8>` and `String`
byte-strings are not sequence-marked and are emitted even when empty. -/
theorem writeField_empty_seq_suppressed (α : Type) (c : ValueCodec α)
    (name w : List Nat) :
    writeField (vecCodec c) [] name w = WOut.ok w := rfl

/-- Claim C6: reading any sequence-typed value whose wire marker byte has
the sequence bit set and whose varint element count is 0 succeeds with the
empty sequence, for all 12 inner tags and any element reader — the
per-element marker check never runs because there are no elements. -/
theorem vecRead_zero_len_any_inner_marker (α : Type)
    (rd : Marker → List Nat → Except Err (α × List Nat))
    (t : InnerMarker) (rest : List Nat) :
    readEpeeValueG (vecReadG rd) (Marker.asU8 ⟨t, true⟩ :: 0 :: rest) =
      .ok ([], rest) := by
  cases t <;> rfl

set_option maxRecDepth 4000 in
/-- Claim C7: decoding a marker byte maps the masked low bits `1..=12` to
the corresponding inner tag with the sequence flag taken from bit `0x80`,
and fails `Format("Unknown value Marker")` on every other byte. -/
theorem markerTryFrom_total_characterisation :
    ∀ b : Fin 256, markerTryFrom b.val =
      (if 1 ≤ b.val % 128 ∧ b.val % 128 ≤ 12 then
        .ok ⟨innerOfTag (b.val % 128), decide (128 ≤ b.val)⟩
      else .error (.format "Unknown value Marker")) := by
  decide

/-- Claim C9: decoding a wire carrying only the field `val` as the record
`{ val: u64, other: u64 }` (no defaults) fails
`Format("Required field was not found!")`; in general the derived `finish`
fails with that error whenever the `other` slot was never filled. -/
theorem twoU64_missing_required_field_fails :
    TwoU64.fromBytes (HEADER ++ [4, 3, 118, 97, 108, 5, 1, 0, 0, 0, 0, 0, 0, 0]) =
      some (.error (.format "Required field was not found!")) ∧
    ∀ a : Option Nat, TwoU64.finishB (a, none) =
      .error (.format "Required field was not found!") :=
  ⟨rfl, fun a => by cases a <;> rfl⟩

/-- Claim C10: `write_field` never reaches the panic inside
`Option::write`, for every type `T` and every writer state.  Three parts:
(a) writing a `None` field emits nothing at all, for every inner codec
unconditionally; (b) the panic-freedom contract is preserved by the
`Option` impl — this is exactly the `Some(t) => t.should_write()`
delegation: an admitted `Some` value delegates to an inner value its own
`should_write` admits, and an absent value is never admitted, so the
`None` write branch is unreachable (the base impls satisfy the contract
by the `neverPanics` lemmas, so the contract holds across the whole
sealed family, nested `Option`s included); (c) under that contract,
`write_field` on any `Option` value never produces the panic outcome. -/
theorem writeField_option_never_panics :
    (∀ (α : Type) (c : ValueCodec α) (name w : List Nat),
      writeField (optionCodec c) (none : Option α) name w = WOut.ok w) ∧
    (∀ (α : Type) (c : ValueCodec α), PanicFree c → PanicFree (optionCodec c)) ∧
    (∀ (α : Type) (c : ValueCodec α), PanicFree c →
      ∀ (v : Option α) (name w : List Nat),
        writeField (optionCodec c) v name w ≠ WOut.panicked) := by
  have closure : ∀ (α : Type) (c : ValueCodec α), PanicFree c → PanicFree (optionCodec c) := by
    intro α c hc v w hsw
    cases v with
    | none => simp [optionCodec, optionShouldWrite] at hsw
    | some t =>
      simp only [optionCodec, optionShouldWrite] at hsw
      simp only [optionCodec, optionWrite]
      exact hc t w hsw
  refine ⟨fun α c name w => rfl, closure, ?_⟩
  intro α c hc v name w
  have hopt : PanicFree (optionCodec c) := closure α c hc
  unfold writeField
  by_cases hsw : (optionCodec c).shouldWrite v
  · rw [if_pos hsw]
    unfold writeFieldName
    by_cases hn : name.length ≤ 255
    · rw [if_pos hn]
      simp only [WOut.andThen, writeEpeeValue]
      exact hopt v _ hsw
    · rw [if_neg hn]
      simp [WOut.andThen]
  · rw [if_neg hsw]
    simp

/-- Witness for C10 at the nested type `Option<Option<u8>>` and the value
`Some(None)` — the instance where only the `should_write` delegation
keeps the inner `None` write unreachable — with the contract for the base
`u8` codec discharged by evaluation. -/
theorem writeField_option_never_panics_witness :
    writeField (optionCodec (optionCodec u8Codec)) (some none) [118] [] ≠ WOut.panicked :=
  writeField_option_never_panics.2.2 (Option Nat) (optionCodec u8Codec)
    (writeField_option_never_panics.2.1 Nat u8Codec
      (fun v w _ => by simp [u8Codec]))
    (some none) [118] []

/-- Claim C5: `nestedDoc k` is a document with a single field, unknown to
the empty record, whose value nests `k + 1` object levels.  Decoding it
fails `Format("Depth of skipped objects exceeded maximum")` exactly when
the nesting exceeds 20 levels (`k ≥ 20`, in particular 21 levels at
`k = 20`), and succeeds — the depth error is never triggered — whenever
the skipped objects nest at most 20 levels (`k ≤ 19`). -/
theorem nestedDoc_skip_depth (k : Nat) :
    EmptyRec.fromBytes (nestedDoc k) =
      (if k ≤ 19 then some (.ok ⟨⟩)
       else some (.error (.format "Depth of skipped objects exceeded maximum"))) := by
  have hlen : (nestedObj k).length = 4 * k + 2 := nestedObj_length k
  have hF : 5 * k + 5 ≤ 4 * (HEADER ++ 4 :: 1 :: 97 :: nestedObj k).length + 16 := by
    simp [HEADER, hlen]
    omega
  have hskip := skipValue_nestedObj k
    (4 * (HEADER ++ 4 :: 1 :: 97 :: nestedObj k).length + 16) 0 [] hF
  rw [List.append_nil] at hskip
  have h0 : EmptyRec.fromBytes (nestedDoc k) =
      headResult (objFinish (fun _ => Except.ok ⟨⟩)
        (SkipRes.through
          (skipValue (4 * (HEADER ++ 4 :: 1 :: 97 :: nestedObj k).length + 16) (nestedObj k) 0)
          (fun r3 => readFieldsG (4 * (HEADER ++ 4 :: 1 :: 97 :: nestedObj k).length + 16)
            EmptyRec.addField 0 () r3 0))) :=
    emptyRec_pipeline (nestedObj k)
  rw [h0, hskip]
  by_cases hk : k ≤ 19
  · rw [if_pos (by omega), if_pos hk]
    rfl
  · rw [if_neg (by omega), if_neg hk]
    rfl

/-- Claim C8, counterexample: a document whose single field name is the
one byte `0xFF`, not valid UTF-8.  The claim says the decoder accepts any
name bytes; the code instead fails `Format("Invalid string")` on the name
itself (`read_field_name` validates UTF-8 through `read_string`). -/
theorem emptyRec_rejects_invalid_utf8_name :
    EmptyRec.fromBytes (HEADER ++ [4, 1, 255, 11, 1]) =
      some (.error (.format "Invalid string")) := rfl

/-- Claim C8, amended: a field name is a 1-byte length `L` followed by `L`
bytes that must be valid UTF-8; every valid-UTF-8 name — known to the
builder or not — is accepted, and an unknown name causes the following
value to be skipped (here a bool value, decoded as the empty record). -/
theorem emptyRec_accepts_valid_utf8_name (name : List Nat)
    (h1 : utf8Valid name = true) (_h2 : name.length ≤ 255) :
    EmptyRec.fromBytes (HEADER ++ 4 :: name.length :: (name ++ [11, 1])) =
      some (.ok ⟨⟩) := by
  have hfname : readFieldName (name.length :: (name ++ [11, 1])) = .ok (name, [11, 1]) := by
    simp only [readFieldName, readByte]
    simp only [readStringB, readExactN_append, h1, if_pos]
  have h0 : EmptyRec.fromBytes (HEADER ++ 4 :: name.length :: (name ++ [11, 1])) =
      headResult (objFinish (fun _ => Except.ok ⟨⟩)
        (readFieldsG (4 * (HEADER ++ 4 :: name.length :: (name ++ [11, 1])).length + 16)
          EmptyRec.addField 1 () (name.length :: (name ++ [11, 1])) 0)) := rfl
  rw [h0]
  have hfields : readFieldsG (4 * (HEADER ++ 4 :: name.length :: (name ++ [11, 1])).length + 16)
      EmptyRec.addField 1 () (name.length :: (name ++ [11, 1])) 0 =
      SkipRes.through
        (skipValue (4 * (HEADER ++ 4 :: name.length :: (name ++ [11, 1])).length + 16) [11, 1] 0)
        (fun r3 => readFieldsG (4 * (HEADER ++ 4 :: name.length :: (name ++ [11, 1])).length + 16)
          EmptyRec.addField 0 () r3 0) := by
    simp only [readFieldsG, hfname, EmptyRec.addField]
  have hbool : skipValue (4 * (HEADER ++ 4 :: name.length :: (name ++ [11, 1])).length + 16)
      [11, 1] 0 = some (.ok []) := by
    have h16 : 4 * (HEADER ++ 4 :: name.length :: (name ++ [11, 1])).length + 16 =
        (4 * (HEADER ++ 4 :: name.length :: (name ++ [11, 1])).length + 13) + 3 := by omega
    rw [h16]
    exact skipValue_bool _ [] 0
  rw [hfields, hbool]
  rfl

/-- Witness for the amended C8 at the name "a". -/
theorem emptyRec_accepts_valid_utf8_name_witness :
    utf8Valid [97] = true ∧ ([97] : List Nat).length ≤ 255 ∧
    EmptyRec.fromBytes (HEADER ++ 4 :: ([97] : List Nat).length :: ([97] ++ [11, 1])) =
      some (.ok ⟨⟩) :=
  ⟨rfl, by decide, emptyRec_accepts_valid_utf8_name [97] rfl (by decide)⟩

end Epee
